import Mathlib

/-!
Shallow embedding of the `DowntimeSlasherSlotsWrapper` logic from
`packages/contractkit/src/wrappers/DowntimeSlasherSlots.ts` of the
celo-monorepo, together with proofs settling the specification claims
about window resolution, slot partitioning and signer-index resolution.

Conventions of the embedding:
* JS numbers that hold block counts, block numbers and indices are
  modelled as `Int` (the code performs ordinary signed arithmetic on
  them, `findAddressIndex` returns `-1` on absence).
* Errors thrown by the wrapper become an `Except SlasherError` result;
  the three distinct error messages of the wrapper map one-to-one onto
  the constructors of `SlasherError`.
* Chain transactions issued while a function runs (the `.send()` call of
  `generateProofOfSlotValidation`) are recorded as an explicit effect
  trace of `ChainCall` events in the returned value.
* Chain collaborators (Accounts, Validators, Election, the epoch lookup)
  become an explicit `ChainEnv` record of pure query functions, and the
  latest block number is passed as the `latestBlock` argument.
-/

namespace DowntimeSlasherSlots

/-- Error taxonomy of the wrapper: each constructor corresponds to one of
the distinct `throw new Error(...)` messages of the TypeScript source. -/
inductive SlasherError where
  /-- Thrown by `getDowntimeWindow`: Start and end block must define a
  window of `length` blocks. -/
  | invalidWindowLength
  /-- Thrown by `generateProofs`: Slot size must be bigger than 1. -/
  | invalidSlotSize
  /-- Thrown by `getValidatorSignerIndex`: Validator signer was not
  elected at block. -/
  | signerNotElected
  deriving DecidableEq, Repr

/-- Embedding of the `DowntimeWindow` interface of the source
(`{start: number, end: number, length: number}`); the field `end` is a
Lean keyword and is rendered `end_`. -/
structure DowntimeWindow where
  start : Int
  end_ : Int
  length : Int
  deriving DecidableEq, Repr

/-- Embedding of the private method `getDowntimeWindow(length, startBlock?,
endBlock?)`.  The chain head query `this.kit.web3.eth.getBlockNumber()`
becomes the argument `latestBlock`. -/
def getDowntimeWindow (length : Int) (startBlock? endBlock? : Option Int)
    (latestBlock : Int) : Except SlasherError DowntimeWindow :=
  match startBlock?, endBlock? with
  | some startBlock, some endBlock =>
    if endBlock - startBlock + 1 ≠ length then
      .error .invalidWindowLength
    else
      .ok { start := startBlock, end_ := endBlock, length := length }
  | none, some endBlock =>
    .ok { start := endBlock - length + 1, end_ := endBlock, length := length }
  | some startBlock, none =>
    .ok { start := startBlock, end_ := startBlock + length - 1, length := length }
  | none, none =>
    -- Use the latest grandparent because that is the most recent block
    -- eligible for inclusion.
    let latest := latestBlock - 2
    .ok { start := latest - length + 1, end_ := latest, length := length }

end DowntimeSlasherSlots

namespace DowntimeSlasherSlots

/-- C3: with both `startBlock` and `endBlock` supplied, `getDowntimeWindow`
fails with `InvalidWindowLength` if and only if
`endBlock - startBlock + 1 ≠ length`, and when the check passes it returns
the window `{start := startBlock, end := endBlock, length}`. -/
theorem getDowntimeWindow_both_bounds (length startBlock endBlock latestBlock : Int) :
    (getDowntimeWindow length (some startBlock) (some endBlock) latestBlock =
        .error .invalidWindowLength ↔ endBlock - startBlock + 1 ≠ length) ∧
    (endBlock - startBlock + 1 = length →
      getDowntimeWindow length (some startBlock) (some endBlock) latestBlock =
        .ok { start := startBlock, end_ := endBlock, length := length }) := by
  by_cases hc : endBlock - startBlock + 1 = length
  · refine ⟨?_, fun _ => ?_⟩
    · simp [getDowntimeWindow, hc]
    · simp [getDowntimeWindow, hc]
  · exact ⟨by simp [getDowntimeWindow, hc], fun h => absurd h hc⟩

/-- C3 witness: the two parts of `getDowntimeWindow_both_bounds`
instantiated at length 12 with windows `[0,11]` (valid) and `[0,10]`
(invalid). -/
theorem getDowntimeWindow_both_bounds_witness :
    getDowntimeWindow 12 (some 0) (some 11) 0 =
        .ok { start := 0, end_ := 11, length := 12 } ∧
    getDowntimeWindow 12 (some 0) (some 10) 0 = .error .invalidWindowLength := by
  refine ⟨(getDowntimeWindow_both_bounds 12 0 11 0).2 (by decide), ?_⟩
  exact (getDowntimeWindow_both_bounds 12 0 10 0).1.mpr (by decide)

/-- C4: with exactly one bound supplied, `getDowntimeWindow` returns
`{start := endBlock - length + 1, end := endBlock}` when only `endBlock`
is given, and `{start := startBlock, end := startBlock + length - 1}` when
only `startBlock` is given. -/
theorem getDowntimeWindow_one_bound (length startBlock endBlock latestBlock : Int) :
    getDowntimeWindow length none (some endBlock) latestBlock =
      .ok { start := endBlock - length + 1, end_ := endBlock, length := length } ∧
    getDowntimeWindow length (some startBlock) none latestBlock =
      .ok { start := startBlock, end_ := startBlock + length - 1, length := length } :=
  ⟨rfl, rfl⟩

/-- C5: with neither bound supplied, `getDowntimeWindow` uses
`latestBlock - 2` as the window end and `latestBlock - 2 - length + 1` as
the window start. -/
theorem getDowntimeWindow_no_bounds (length latestBlock : Int) :
    getDowntimeWindow length none none latestBlock =
      .ok { start := latestBlock - 2 - length + 1, end_ := latestBlock - 2,
            length := length } :=
  rfl

/-- C6: every window returned by `getDowntimeWindow`, in any of its four
input cases, satisfies the invariant `end - start + 1 = length`. -/
theorem getDowntimeWindow_invariant (length : Int) (startBlock? endBlock? : Option Int)
    (latestBlock : Int) (w : DowntimeWindow)
    (h : getDowntimeWindow length startBlock? endBlock? latestBlock = .ok w) :
    w.end_ - w.start + 1 = w.length := by
  rcases startBlock? with _ | s <;> rcases endBlock? with _ | e <;>
    simp only [getDowntimeWindow] at h
  · cases h
    simp only
    omega
  · cases h
    simp only
    omega
  · cases h
    simp only
    omega
  · split at h
    · exact Except.noConfusion h
    · rename_i hc
      rw [not_ne_iff] at hc
      cases h
      simpa using hc

/-- C6 witness: `getDowntimeWindow_invariant` applied to the window
resolved from `endBlock = 20` with length 12. -/
theorem getDowntimeWindow_invariant_witness :
    (9 : Int) - 20 + 12 = 1 ∧
    ((⟨9, 20, 12⟩ : DowntimeWindow).end_ - (⟨9, 20, 12⟩ : DowntimeWindow).start + 1 =
      (⟨9, 20, 12⟩ : DowntimeWindow).length) := by
  exact ⟨by decide, getDowntimeWindow_invariant 12 none (some 20) 0 ⟨9, 20, 12⟩ rfl⟩

end DowntimeSlasherSlots

namespace DowntimeSlasherSlots

/-- Chain transactions and queries that the wrapper can issue while
partitioning a window; `generateProofs` issues
`generateProofOfSlotValidation` transactions, and the wrapper also exposes
the `slotAlreadyCalculated` query (which `generateProofs` could consult
but, as proved below, never does). -/
inductive ChainCall where
  /-- The transaction `generateProofOfSlotValidation(startBlock, endBlock).send()`. -/
  | generateProofOfSlotValidation (startBlock endBlock : Int)
  /-- The query `slotAlreadyCalculated(startBlock, endBlock)`. -/
  | slotAlreadyCalculated (startBlock endBlock : Int)
  deriving DecidableEq, Repr

/-- Return value of `generateProofs`: the `{ startSlots, endSlots }` object
of the source, extended with the trace of chain calls issued by the loop. -/
structure GenerateProofsResult where
  startSlots : List Int
  endSlots : List Int
  calls : List ChainCall
  deriving DecidableEq, Repr

/-- Loop body of `generateProofs`:
`for (let i = slashableWindow.start; i < slashableWindow.end; i += slotSize)`.
Each iteration pushes `start = i` and
`end = i + slotSize - 1 > slashableWindow.end ? slashableWindow.end : i + slotSize - 1`
and sends `generateProofOfSlotValidation(start, end)`.  The loop is
translated by well-founded recursion on an explicit fuel; the fuel chosen
by `generateProofs` below bounds the number of iterations, which is
justified by `generateProofsLoop_fuel_irrelevant`. -/
def generateProofsLoop (wend slotSize : Int) : Nat → Int → GenerateProofsResult
  | 0, _ => { startSlots := [], endSlots := [], calls := [] }
  | fuel + 1, i =>
    if i < wend then
      let start := i
      let end_ := if i + slotSize - 1 > wend then wend else i + slotSize - 1
      let rest := generateProofsLoop wend slotSize fuel (i + slotSize)
      { startSlots := start :: rest.startSlots,
        endSlots := end_ :: rest.endSlots,
        calls := .generateProofOfSlotValidation start end_ :: rest.calls }
    else
      { startSlots := [], endSlots := [], calls := [] }

/-- Embedding of the private method
`generateProofs(slashableWindow, slotSize)` of the wrapper. -/
def generateProofs (slashableWindow : DowntimeWindow) (slotSize : Int) :
    Except SlasherError GenerateProofsResult :=
  if slotSize ≤ 1 then
    .error .invalidSlotSize
  else
    .ok (generateProofsLoop slashableWindow.end_ slotSize
      (slashableWindow.end_ - slashableWindow.start).toNat slashableWindow.start)

end DowntimeSlasherSlots

namespace DowntimeSlasherSlots

/-- Unfolding of a loop iteration whose guard `i < wend` fails: nothing is
produced, whatever the fuel. -/
theorem generateProofsLoop_stop (wend slotSize : Int) (fuel : Nat) (i : Int)
    (h : ¬ i < wend) :
    generateProofsLoop wend slotSize fuel i =
      { startSlots := [], endSlots := [], calls := [] } := by
  cases fuel <;> simp [generateProofsLoop, h]

/-- Unfolding of a loop iteration whose guard `i < wend` holds. -/
theorem generateProofsLoop_step (wend slotSize : Int) (fuel : Nat) (i : Int)
    (h : i < wend) :
    generateProofsLoop wend slotSize (fuel + 1) i =
      { startSlots :=
          i :: (generateProofsLoop wend slotSize fuel (i + slotSize)).startSlots,
        endSlots :=
          (if i + slotSize - 1 > wend then wend else i + slotSize - 1) ::
            (generateProofsLoop wend slotSize fuel (i + slotSize)).endSlots,
        calls :=
          .generateProofOfSlotValidation i
              (if i + slotSize - 1 > wend then wend else i + slotSize - 1) ::
            (generateProofsLoop wend slotSize fuel (i + slotSize)).calls } := by
  simp [generateProofsLoop, h]

/-- Any fuel at least `(wend - i).toNat` lets the loop run to its natural
termination, so the fuel chosen in `generateProofs` does not truncate the
source's `for` loop. -/
theorem generateProofsLoop_fuel_irrelevant (wend slotSize : Int) (hs : 1 ≤ slotSize) :
    ∀ (fuelA fuelB : Nat) (i : Int),
      (wend - i).toNat ≤ fuelA → (wend - i).toNat ≤ fuelB →
      generateProofsLoop wend slotSize fuelA i = generateProofsLoop wend slotSize fuelB i := by
  intro fuelA
  induction fuelA with
  | zero =>
    intro fuelB i hA hB
    have hi : ¬ i < wend := by omega
    rw [generateProofsLoop_stop wend slotSize _ _ hi,
      generateProofsLoop_stop wend slotSize _ _ hi]
  | succ fuelA ih =>
    intro fuelB i hA hB
    by_cases hi : i < wend
    · rcases fuelB with _ | fuelB
      · omega
      · rw [generateProofsLoop_step wend slotSize _ _ hi,
          generateProofsLoop_step wend slotSize _ _ hi,
          ih fuelB (i + slotSize) (by omega) (by omega)]
    · rw [generateProofsLoop_stop wend slotSize _ _ hi,
        generateProofsLoop_stop wend slotSize _ _ hi]

/-- First slot produced by a running loop: it starts exactly at the loop
entry point `i`. -/
theorem generateProofsLoop_head (wend slotSize : Int) (fuel : Nat) (i : Int)
    (h : i < wend) (hfuel : fuel ≠ 0) :
    (generateProofsLoop wend slotSize fuel i).startSlots.head? = some i := by
  rcases fuel with _ | fuel
  · exact absurd rfl hfuel
  · rw [generateProofsLoop_step wend slotSize _ _ h]
    rfl

/-- Last slot end produced by the loop when it is given enough fuel: the
window end when `slotSize` does not divide `wend - i`, and `wend - 1`
(one block short) when it does. -/
theorem generateProofsLoop_getLast (wend slotSize : Int) (hs : 2 ≤ slotSize) :
    ∀ (fuel : Nat) (i : Int), i < wend → (wend - i).toNat ≤ fuel →
      (generateProofsLoop wend slotSize fuel i).endSlots.getLast? =
        some (if (wend - i) % slotSize = 0 then wend - 1 else wend) := by
  intro fuel
  induction fuel with
  | zero => intro i hi hfuel; omega
  | succ fuel ih =>
    intro i hi hfuel
    rw [generateProofsLoop_step wend slotSize _ _ hi]
    by_cases hnext : i + slotSize < wend
    · have hlast := ih (i + slotSize) hnext (by omega)
      rcases hrest : (generateProofsLoop wend slotSize fuel (i + slotSize)).endSlots with
          _ | ⟨c, cs⟩
      · rw [hrest] at hlast
        exact absurd hlast (by simp)
      · rw [hrest] at hlast
        simp only [hrest, List.getLast?_cons_cons, hlast]
        have harg : wend - (i + slotSize) = wend - i - slotSize := by ring
        rw [harg, Int.emod_sub_cancel]
    · rw [generateProofsLoop_stop wend slotSize fuel (i + slotSize) hnext]
      by_cases hdiv : i + slotSize = wend
      · have hmod : (wend - i) % slotSize = 0 := by
          rw [show wend - i = slotSize by omega, Int.emod_self]
        rw [hmod, if_pos rfl, if_neg (show ¬ i + slotSize - 1 > wend by omega)]
        simp only [List.getLast?_singleton, Option.some.injEq]
        omega
      · have hmod : (wend - i) % slotSize = wend - i := by
          exact Int.emod_eq_of_lt (by omega) (by omega)
        rw [hmod, if_neg (show ¬ wend - i = 0 by omega)]
        have hend : (if i + slotSize - 1 > wend then wend else i + slotSize - 1) = wend := by
          split <;> omega
        rw [hend]
        exact List.getLast?_singleton wend

/-- Slots produced by the loop are chained: each slot starts one block
after the previous slot's end. -/
theorem generateProofsLoop_chain (wend slotSize : Int) :
    ∀ (fuel : Nat) (i : Int),
      List.Chain' (fun p q : Int × Int => q.1 = p.2 + 1)
        ((generateProofsLoop wend slotSize fuel i).startSlots.zip
          (generateProofsLoop wend slotSize fuel i).endSlots) := by
  intro fuel
  induction fuel with
  | zero => intro i; simp [generateProofsLoop]
  | succ fuel ih =>
    intro i
    by_cases hi : i < wend
    · rw [generateProofsLoop_step wend slotSize _ _ hi]
      simp only [List.zip_cons_cons]
      refine List.chain'_cons'.mpr ⟨?_, ih (i + slotSize)⟩
      intro q hq
      rcases fuel with _ | fuel
      · simp [generateProofsLoop] at hq
      · by_cases hnext : i + slotSize < wend
        · rw [generateProofsLoop_step wend slotSize _ _ hnext] at hq
          simp only [List.zip_cons_cons, List.head?_cons, Option.mem_def,
            Option.some.injEq] at hq
          subst hq
          simp only
          rw [if_neg (show ¬ i + slotSize - 1 > wend by omega)]
          ring
        · rw [generateProofsLoop_stop wend slotSize _ _ hnext] at hq
          simp at hq
    · rw [generateProofsLoop_stop wend slotSize _ _ hi]
      simp

/-- Trace shape of the loop: it issues exactly one
`generateProofOfSlotValidation` transaction per produced slot, in order,
and no other chain call. -/
theorem generateProofsLoop_calls (wend slotSize : Int) :
    ∀ (fuel : Nat) (i : Int),
      (generateProofsLoop wend slotSize fuel i).calls =
        ((generateProofsLoop wend slotSize fuel i).startSlots.zip
            (generateProofsLoop wend slotSize fuel i).endSlots).map
          (fun p => ChainCall.generateProofOfSlotValidation p.1 p.2) := by
  intro fuel
  induction fuel with
  | zero => intro i; simp [generateProofsLoop]
  | succ fuel ih =>
    intro i
    by_cases hi : i < wend
    · rw [generateProofsLoop_step wend slotSize _ _ hi]
      simp only [List.zip_cons_cons, List.map_cons]
      rw [ih (i + slotSize)]
    · rw [generateProofsLoop_stop wend slotSize _ _ hi]
      simp

end DowntimeSlasherSlots

namespace DowntimeSlasherSlots

/-- C1 counterexample: the claim that for every window and every
`slotSize > 1` the first slot starts at `window.start` and the last slot
ends at `window.end` is false: on the window `[0, 4]` (length 5) with
`slotSize = 2`, `generateProofs` produces the slots `[0,1], [2,3]`, whose
last end is `3`, not the window end `4`. -/
theorem generateProofs_coverage_counterexample :
    ¬ (∀ (w : DowntimeWindow) (slotSize : Int), 1 < slotSize →
        ∀ r, generateProofs w slotSize = .ok r →
          r.startSlots.head? = some w.start ∧
          r.endSlots.getLast? = some w.end_) := by
  intro hclaim
  have h := hclaim ⟨0, 4, 5⟩ 2 (by norm_num)
    { startSlots := [0, 2], endSlots := [1, 3],
      calls := [.generateProofOfSlotValidation 0 1,
                .generateProofOfSlotValidation 2 3] } rfl
  exact absurd h.2 (by decide)

/-- C1 amended: for every window with `start < end` and every
`slotSize > 1`, the first slot produced by `generateProofs` starts at
`window.start`, and the last slot ends at `window.end` unless `slotSize`
divides `window.end - window.start`, in which case the last slot ends at
`window.end - 1` and the final block of the window is left uncovered.
For a window with `start = end` no slot is produced at all (see the
length-one-window theorem). -/
theorem generateProofs_coverage (w : DowntimeWindow) (slotSize : Int)
    (hs : 1 < slotSize) (hw : w.start < w.end_) (r : GenerateProofsResult)
    (h : generateProofs w slotSize = .ok r) :
    r.startSlots.head? = some w.start ∧
    r.endSlots.getLast? =
      some (if (w.end_ - w.start) % slotSize = 0 then w.end_ - 1 else w.end_) := by
  unfold generateProofs at h
  rw [if_neg (by omega)] at h
  cases h
  constructor
  · exact generateProofsLoop_head w.end_ slotSize _ _ hw (by omega)
  · exact generateProofsLoop_getLast w.end_ slotSize (by omega) _ _ hw (by omega)

/-- C1 amended witness: `generateProofs_coverage` applied to the window
`[0, 4]` with `slotSize = 2` (the divisible case: the last slot ends one
block short of the window end). -/
theorem generateProofs_coverage_witness :
    (1 : Int) < 2 ∧ (0 : Int) < 4 ∧
    (([0, 2] : List Int).head? = some 0 ∧
      ([1, 3] : List Int).getLast? =
        some (if ((4 : Int) - 0) % 2 = 0 then 4 - 1 else 4)) :=
  ⟨by norm_num, by norm_num,
    generateProofs_coverage ⟨0, 4, 5⟩ 2 (by norm_num) (by norm_num)
      { startSlots := [0, 2], endSlots := [1, 3],
        calls := [.generateProofOfSlotValidation 0 1,
                  .generateProofOfSlotValidation 2 3] } rfl⟩

/-- C2: the slots produced by `generateProofs` are contiguous and chained
(each slot starts exactly one block after the previous slot's end), and
partitioning a window of length 12 with slot size 4 yields exactly the
three contiguous slots `[s, s+3], [s+4, s+7], [s+8, s+11]`. -/
theorem generateProofs_chained :
    (∀ (w : DowntimeWindow) (slotSize : Int), 1 < slotSize →
      ∀ r, generateProofs w slotSize = .ok r →
        List.Chain' (fun p q : Int × Int => q.1 = p.2 + 1)
          (r.startSlots.zip r.endSlots)) ∧
    (∀ s : Int, generateProofs ⟨s, s + 11, 12⟩ 4 =
      .ok { startSlots := [s, s + 4, s + 8],
            endSlots := [s + 3, s + 7, s + 11],
            calls := [.generateProofOfSlotValidation s (s + 3),
                      .generateProofOfSlotValidation (s + 4) (s + 7),
                      .generateProofOfSlotValidation (s + 8) (s + 11)] }) := by
  constructor
  · intro w slotSize hs r h
    unfold generateProofs at h
    rw [if_neg (by omega)] at h
    cases h
    exact generateProofsLoop_chain w.end_ slotSize _ w.start
  · intro s
    show Except.ok (generateProofsLoop (s + 11) 4 (s + 11 - s).toNat s) = _
    rw [show (s + 11 - s).toNat = 11 by omega,
      show (11 : Nat) = 10 + 1 by rfl,
      generateProofsLoop_step _ _ _ _ (show s < s + 11 by omega),
      if_neg (show ¬ s + 4 - 1 > s + 11 by omega),
      show (10 : Nat) = 9 + 1 by rfl,
      generateProofsLoop_step _ _ _ _ (show s + 4 < s + 11 by omega),
      if_neg (show ¬ s + 4 + 4 - 1 > s + 11 by omega),
      show (9 : Nat) = 8 + 1 by rfl,
      generateProofsLoop_step _ _ _ _ (show s + 4 + 4 < s + 11 by omega),
      if_neg (show ¬ s + 4 + 4 + 4 - 1 > s + 11 by omega),
      generateProofsLoop_stop _ _ _ _ (show ¬ s + 4 + 4 + 4 < s + 11 by omega)]
    refine congrArg Except.ok ?_
    congr 1 <;> norm_num
    all_goals omega

/-- C2 witness: `generateProofs_chained` instantiated at the window
`[0, 11]` of length 12 with slot size 4: the produced slots
`[0,3], [4,7], [8,11]` are chained. -/
theorem generateProofs_chained_witness :
    ((1 : Int) < 4 ∧
      List.Chain' (fun p q : Int × Int => q.1 = p.2 + 1)
        (([0, 4, 8] : List Int).zip ([3, 7, 11] : List Int))) ∧
    generateProofs ⟨0, 11, 12⟩ 4 =
      .ok { startSlots := [0, 4, 8], endSlots := [3, 7, 11],
            calls := [.generateProofOfSlotValidation 0 3,
                      .generateProofOfSlotValidation 4 7,
                      .generateProofOfSlotValidation 8 11] } :=
  ⟨⟨by norm_num,
    generateProofs_chained.1 ⟨0, 11, 12⟩ 4 (by norm_num)
      { startSlots := [0, 4, 8], endSlots := [3, 7, 11],
        calls := [.generateProofOfSlotValidation 0 3,
                  .generateProofOfSlotValidation 4 7,
                  .generateProofOfSlotValidation 8 11] } rfl⟩,
    generateProofs_chained.2 0⟩

/-- C7: `generateProofs` fails with `InvalidSlotSize` exactly when
`slotSize ≤ 1`, and succeeds (so in particular does not fail with that
error) whenever `slotSize > 1`. -/
theorem generateProofs_invalidSlotSize (w : DowntimeWindow) (slotSize : Int) :
    (generateProofs w slotSize = .error .invalidSlotSize ↔ slotSize ≤ 1) ∧
    (1 < slotSize → ∃ r, generateProofs w slotSize = .ok r) := by
  by_cases h : slotSize ≤ 1
  · exact ⟨by simp [generateProofs, h], fun h1 => absurd h1 (by omega)⟩
  · refine ⟨by simp [generateProofs, h], fun _ =>
      ⟨generateProofsLoop w.end_ slotSize (w.end_ - w.start).toNat w.start, ?_⟩⟩
    simp [generateProofs, h]

/-- C7 witness: `generateProofs_invalidSlotSize` applied to the window
`[0, 11]` with slot sizes 1 (rejected) and 4 (accepted). -/
theorem generateProofs_invalidSlotSize_witness :
    ((1 : Int) ≤ 1 ∧
      generateProofs ⟨0, 11, 12⟩ 1 = .error .invalidSlotSize) ∧
    ((1 : Int) < 4 ∧ ∃ r, generateProofs ⟨0, 11, 12⟩ 4 = .ok r) :=
  ⟨⟨by norm_num, (generateProofs_invalidSlotSize ⟨0, 11, 12⟩ 1).1.mpr (by norm_num)⟩,
    ⟨by norm_num, (generateProofs_invalidSlotSize ⟨0, 11, 12⟩ 4).2 (by norm_num)⟩⟩

/-- C8 counterexample: the claim that `generateProofs` queries
`slotAlreadyCalculated` for each generated slot (before issuing the
accumulation transaction) is false: on the window `[0, 3]` with
`slotSize = 2` the issued chain calls are exactly the two
`generateProofOfSlotValidation` transactions and no
`slotAlreadyCalculated` query appears in the trace. -/
theorem generateProofs_query_counterexample :
    ¬ (∀ (w : DowntimeWindow) (slotSize : Int) (r : GenerateProofsResult),
        generateProofs w slotSize = .ok r →
        ∀ p ∈ r.startSlots.zip r.endSlots,
          ChainCall.slotAlreadyCalculated p.1 p.2 ∈ r.calls) := by
  intro hclaim
  have h := hclaim ⟨0, 3, 4⟩ 2
    { startSlots := [0, 2], endSlots := [1, 3],
      calls := [.generateProofOfSlotValidation 0 1,
                .generateProofOfSlotValidation 2 3] } rfl (0, 1) (by decide)
  exact absurd h (by decide)

/-- C8 amended: `generateProofs` issues one unconditional
`generateProofOfSlotValidation` transaction per generated slot, in slot
order, and never queries `slotAlreadyCalculated`: already-computed slot
accumulators are not skipped. -/
theorem generateProofs_calls (w : DowntimeWindow) (slotSize : Int)
    (r : GenerateProofsResult) (h : generateProofs w slotSize = .ok r) :
    r.calls = (r.startSlots.zip r.endSlots).map
        (fun p => ChainCall.generateProofOfSlotValidation p.1 p.2) ∧
    ∀ s e, ChainCall.slotAlreadyCalculated s e ∉ r.calls := by
  unfold generateProofs at h
  split at h
  · exact Except.noConfusion h
  · cases h
    refine ⟨generateProofsLoop_calls w.end_ slotSize _ w.start, ?_⟩
    intro s e hmem
    rw [generateProofsLoop_calls w.end_ slotSize _ w.start] at hmem
    simp at hmem

/-- C8 amended witness: `generateProofs_calls` applied to the window
`[0, 3]` with `slotSize = 2`. -/
theorem generateProofs_calls_witness :
    ([.generateProofOfSlotValidation 0 1,
      .generateProofOfSlotValidation 2 3] : List ChainCall) =
      (([0, 2] : List Int).zip ([1, 3] : List Int)).map
        (fun p => ChainCall.generateProofOfSlotValidation p.1 p.2) ∧
    ∀ s e, ChainCall.slotAlreadyCalculated s e ∉
      ([.generateProofOfSlotValidation 0 1,
        .generateProofOfSlotValidation 2 3] : List ChainCall) :=
  generateProofs_calls ⟨0, 3, 4⟩ 2
    { startSlots := [0, 2], endSlots := [1, 3],
      calls := [.generateProofOfSlotValidation 0 1,
                .generateProofOfSlotValidation 2 3] } rfl

/-- C10: for a window of length 1 (`start = end`) and any `slotSize > 1`,
`generateProofs` returns empty `startSlots` and `endSlots` and issues no
chain call at all. -/
theorem generateProofs_length_one_window (w : DowntimeWindow) (slotSize : Int)
    (hw : w.start = w.end_) (hs : 1 < slotSize) :
    generateProofs w slotSize =
      .ok { startSlots := [], endSlots := [], calls := [] } := by
  unfold generateProofs
  rw [if_neg (by omega), show (w.end_ - w.start).toNat = 0 by omega]
  rfl

/-- C10 witness: `generateProofs_length_one_window` applied to the window
`[5, 5]` with `slotSize = 4`. -/
theorem generateProofs_length_one_window_witness :
    generateProofs ⟨5, 5, 1⟩ 4 =
      .ok { startSlots := [], endSlots := [], calls := [] } :=
  generateProofs_length_one_window ⟨5, 5, 1⟩ 4 rfl (by norm_num)

end DowntimeSlasherSlots

namespace DowntimeSlasherSlots

/-- Addresses of accounts and signers, abstracted to natural numbers. -/
abbrev Addr := Nat

/-- Modelled from the spec: `findAddressIndex` of the `@celo/utils`
package, whose source file is not among the given sources.  Per the spec
the wrapper "looks up the index of that signer in the
elected-validator-signer list" and treats a negative result as not
elected, so the function is modelled as the JS `indexOf`: the zero-based
index of the first occurrence of the address, or `-1` when it is absent. -/
def findAddressIndex (address : Addr) : List Addr → Int
  | [] => -1
  | a :: rest =>
    if a = address then 0
    else
      let r := findAddressIndex address rest
      if r < 0 then -1 else r + 1

/-- Pure model of the chain collaborators consulted by the signer-index
logic: Accounts (`isAccount`), Validators (`getValidator(...).signer`),
Election (`getValidatorSigners`, `validatorSignerAddressFromSet`) and the
kit's `getEpochNumberOfBlock`. -/
structure ChainEnv where
  isAccount : Addr → Bool
  getValidatorSigner : Addr → Int → Addr
  getValidatorSigners : Int → List Addr
  validatorSignerAddressFromSet : Int → Int → Addr
  getEpochNumberOfBlock : Int → Int

/-- Embedding of `getValidatorSignerIndex(validatorOrSignerAddress,
blockNumber)`: resolve the signer (through Accounts/Validators when the
address is an account), look its index up in the elected set at the block,
and fail when the index is negative. -/
def getValidatorSignerIndex (env : ChainEnv) (validatorOrSignerAddress : Addr)
    (blockNumber : Int) : Except SlasherError Int :=
  let signer :=
    if env.isAccount validatorOrSignerAddress then
      env.getValidatorSigner validatorOrSignerAddress blockNumber
    else validatorOrSignerAddress
  let index := findAddressIndex signer (env.getValidatorSigners blockNumber)
  if index < 0 then .error .signerNotElected else .ok index

/-- Embedding of the window and signer-index resolution performed by
`slashStartSignerIndex(startBlock, startSignerIndex, ...)` before it hands
off to the private `slash`; the result is the window and the two signer
indices passed on.  The slashable downtime `length` (the chain value
`slashableDowntime()`) and the chain head `latestBlock` are arguments. -/
def slashStartSignerIndex (env : ChainEnv) (length latestBlock : Int)
    (startBlock startSignerIndex : Int) :
    Except SlasherError (DowntimeWindow × Int × Int) := do
  let signer := env.validatorSignerAddressFromSet startSignerIndex startBlock
  let startEpoch := env.getEpochNumberOfBlock startBlock
  -- Follows DowntimeSlasher.getEndBlock()
  let window ← getDowntimeWindow length (some startBlock) none latestBlock
  let endEpoch := env.getEpochNumberOfBlock window.end_
  let endSignerIndex :=
    if startEpoch = endEpoch then startSignerIndex
    else findAddressIndex signer (env.getValidatorSigners window.end_)
  pure (window, startSignerIndex, endSignerIndex)

/-- Embedding of the window and signer-index resolution performed by
`slashEndSignerIndex(endBlock, endSignerIndex, ...)` before it hands off
to the private `slash`. -/
def slashEndSignerIndex (env : ChainEnv) (length latestBlock : Int)
    (endBlock endSignerIndex : Int) :
    Except SlasherError (DowntimeWindow × Int × Int) := do
  let signer := env.validatorSignerAddressFromSet endSignerIndex endBlock
  let endEpoch := env.getEpochNumberOfBlock endBlock
  -- Reverses DowntimeSlasher.getEndBlock()
  let slashableWindow ← getDowntimeWindow length none (some endBlock) latestBlock
  let startEpoch := env.getEpochNumberOfBlock slashableWindow.start
  let startSignerIndex :=
    if startEpoch = endEpoch then endSignerIndex
    else findAddressIndex signer (env.getValidatorSigners slashableWindow.start)
  pure (slashableWindow, startSignerIndex, endSignerIndex)

/-- Negative result of `findAddressIndex` characterises absence from the
list. -/
theorem findAddressIndex_neg_iff (address : Addr) (l : List Addr) :
    findAddressIndex address l < 0 ↔ address ∉ l := by
  induction l with
  | nil => simp [findAddressIndex]
  | cons a rest ih =>
    simp only [findAddressIndex]
    by_cases ha : a = address
    · simp [ha]
    · rw [if_neg ha]
      by_cases hr : findAddressIndex address rest < 0
      · rw [if_pos hr]
        simp only [List.mem_cons, not_or]
        exact iff_of_true (by norm_num) ⟨fun he => ha he.symm, ih.mp hr⟩
      · rw [if_neg hr]
        simp only [List.mem_cons, not_or]
        constructor
        · intro hcon
          exact absurd hcon (by omega)
        · rintro ⟨-, hnr⟩
          exact absurd (ih.mpr hnr) hr

/-- Statement of claim C9 as written: every path that resolves a signer
index for a block fails with `SignerNotElected` when the signer is absent
from the elected set at the queried block — for `getValidatorSignerIndex`,
and for the start-index/end-index resolutions inside
`slashStartSignerIndex` and `slashEndSignerIndex` (whose opposite-boundary
lookup is only performed when the two window boundaries fall in different
epochs). -/
def signerIndexPathsFailWhenNotElected : Prop :=
  (∀ (env : ChainEnv) (address : Addr) (blockNumber : Int),
    (if env.isAccount address then env.getValidatorSigner address blockNumber
      else address) ∉ env.getValidatorSigners blockNumber →
    getValidatorSignerIndex env address blockNumber = .error .signerNotElected) ∧
  (∀ (env : ChainEnv) (length latestBlock startBlock startSignerIndex : Int),
    env.getEpochNumberOfBlock startBlock ≠
      env.getEpochNumberOfBlock (startBlock + length - 1) →
    env.validatorSignerAddressFromSet startSignerIndex startBlock ∉
      env.getValidatorSigners (startBlock + length - 1) →
    slashStartSignerIndex env length latestBlock startBlock startSignerIndex =
      .error .signerNotElected) ∧
  (∀ (env : ChainEnv) (length latestBlock endBlock endSignerIndex : Int),
    env.getEpochNumberOfBlock (endBlock - length + 1) ≠
      env.getEpochNumberOfBlock endBlock →
    env.validatorSignerAddressFromSet endSignerIndex endBlock ∉
      env.getValidatorSigners (endBlock - length + 1) →
    slashEndSignerIndex env length latestBlock endBlock endSignerIndex =
      .error .signerNotElected)

/-- Concrete chain model for the C9 counterexample: the only elected
signer is address 7 and only at block 100, the epoch number equals the
block number (so the two window boundaries fall in different epochs), and
the signer set at every other block is empty. -/
def envC9 : ChainEnv where
  isAccount := fun _ => false
  getValidatorSigner := fun a _ => a
  getValidatorSigners := fun b => if b = 100 then [7] else []
  validatorSignerAddressFromSet := fun _ _ => 7
  getEpochNumberOfBlock := fun b => b

/-- C9 counterexample: the claim is false for `slashEndSignerIndex`.  In
`envC9`, resolving the start signer index for the window `[89, 100]`
(epochs differ, signer 7 not elected at block 89) does not fail with
`SignerNotElected`: the operation proceeds and hands the invalid index
`-1` to the slash submission. -/
theorem slashEndSignerIndex_not_elected_counterexample :
    ¬ signerIndexPathsFailWhenNotElected := by
  intro hclaim
  have h := hclaim.2.2 envC9 12 0 100 0 (by decide) (by decide)
  rw [show slashEndSignerIndex envC9 12 0 100 0 =
      .ok (⟨89, 100, 12⟩, -1, 0) from rfl] at h
  exact Except.noConfusion h

/-- C9 amended: `getValidatorSignerIndex` fails with `SignerNotElected`
exactly when the resolved signer is absent from the elected set at the
queried block; but `slashStartSignerIndex` and `slashEndSignerIndex`
never fail with `SignerNotElected`: they always proceed, and when the two
window boundaries fall in different epochs they resolve the
opposite-boundary index with a bare `findAddressIndex`, which is negative
(`-1`) exactly when the signer is absent — the invalid index is passed on
to the slash submission instead of stopping. -/
theorem signerIndexResolution (env : ChainEnv) (address : Addr)
    (blockNumber length latestBlock startBlock endBlock
      startSignerIndex endSignerIndex : Int) :
    (getValidatorSignerIndex env address blockNumber = .error .signerNotElected ↔
      (if env.isAccount address then env.getValidatorSigner address blockNumber
        else address) ∉ env.getValidatorSigners blockNumber) ∧
    slashStartSignerIndex env length latestBlock startBlock startSignerIndex =
      .ok (⟨startBlock, startBlock + length - 1, length⟩, startSignerIndex,
        if env.getEpochNumberOfBlock startBlock =
            env.getEpochNumberOfBlock (startBlock + length - 1) then
          startSignerIndex
        else
          findAddressIndex
            (env.validatorSignerAddressFromSet startSignerIndex startBlock)
            (env.getValidatorSigners (startBlock + length - 1))) ∧
    slashEndSignerIndex env length latestBlock endBlock endSignerIndex =
      .ok (⟨endBlock - length + 1, endBlock, length⟩,
        (if env.getEpochNumberOfBlock (endBlock - length + 1) =
            env.getEpochNumberOfBlock endBlock then
          endSignerIndex
        else
          findAddressIndex
            (env.validatorSignerAddressFromSet endSignerIndex endBlock)
            (env.getValidatorSigners (endBlock - length + 1))),
        endSignerIndex) ∧
    (∀ (a : Addr) (l : List Addr), findAddressIndex a l < 0 ↔ a ∉ l) := by
  refine ⟨?_, rfl, rfl, fun a l => findAddressIndex_neg_iff a l⟩
  have hdef : getValidatorSignerIndex env address blockNumber =
      if findAddressIndex
          (if env.isAccount address then env.getValidatorSigner address blockNumber
            else address) (env.getValidatorSigners blockNumber) < 0 then
        .error .signerNotElected
      else
        .ok (findAddressIndex
          (if env.isAccount address then env.getValidatorSigner address blockNumber
            else address) (env.getValidatorSigners blockNumber)) := rfl
  rw [hdef]
  by_cases hidx : findAddressIndex
      (if env.isAccount address then env.getValidatorSigner address blockNumber
        else address) (env.getValidatorSigners blockNumber) < 0
  · rw [if_pos hidx]
    exact iff_of_true rfl ((findAddressIndex_neg_iff _ _).mp hidx)
  · rw [if_neg hidx]
    exact iff_of_false (fun hcon => Except.noConfusion hcon)
      (fun hmem => hidx ((findAddressIndex_neg_iff _ _).mpr hmem))

end DowntimeSlasherSlots
